import Mathlib

/-!
Shallow embedding of the frame-sampling / downsampling / thumbnail pipeline
of the `collectors` repository (directory `src/python`), together with
theorems settling the specification claims about it.

Numeric conventions: Python floats are modelled as exact rationals (`ℚ`);
Python `int(x)` (truncation toward zero) is modelled by `pytrunc`;
byte strings and character strings are modelled as `List ℕ`
(their code points / byte values), with Python string comparison being
the lexicographic order `List.Lex (· < ·)` that Mathlib installs as `<`
on `List ℕ`.
-/

namespace Collectors

/-- Model of Python `int(x)` applied to a real quantity: truncation toward
zero. -/
def pytrunc (q : ℚ) : ℤ :=
  if 0 ≤ q then ⌊q⌋ else -⌊-q⌋

theorem pytrunc_eq_floor {q : ℚ} (h : 0 ≤ q) : pytrunc q = ⌊q⌋ := by
  simp [pytrunc, h]

/-- Model of `np.linspace(0, d, num=n, endpoint=False)`: the `n` values
`i * (d / n)` for `i = 0, ..., n-1` (empty when `n = 0`). -/
def linspace (d : ℚ) (n : ℕ) : List ℚ :=
  (List.range n).map (fun i : ℕ => (i : ℚ) * (d / (n : ℚ)))

/-- Thumbnail count of the generator classes
(`CV2ThumbnailGenerator._generate_frame_data`, and identically the moviepy
and ffmpeg generators): `num_thumbnails = int(duration * self.output_fps)`.
No minimum count is applied. -/
def cv2NumThumbnails (duration outputFps : ℚ) : ℕ :=
  (pytrunc (duration * outputFps)).toNat

/-- Sampled timestamps of `CV2ThumbnailGenerator._generate_frame_data`:
`np.linspace(0, duration, num=num_thumbnails, endpoint=False)`. -/
def cv2SampleTimestamps (duration outputFps : ℚ) : List ℚ :=
  linspace duration (cv2NumThumbnails duration outputFps)

/-- Thumbnail count of the standalone script `generate_thumbnails.py`:
`num_thumbnails = max(5, int(duration / 6))`. -/
def moviepyNumThumbnails (duration : ℚ) : ℕ :=
  max 5 (pytrunc (duration / 6)).toNat

theorem linspace_length (d : ℚ) (n : ℕ) : (linspace d n).length = n := by
  rw [linspace, List.length_map, List.length_range]

theorem linspace_sorted {d : ℚ} (hd : 0 < d) (n : ℕ) :
    (linspace d n).Pairwise (· < ·) := by
  unfold linspace
  rcases Nat.eq_zero_or_pos n with hn | hn
  · subst hn; simp
  · refine (List.pairwise_lt_range n).map _ (fun i j hij => ?_)
    have hstep : 0 < d / (n : ℚ) := by positivity
    exact mul_lt_mul_of_pos_right (by exact_mod_cast hij) hstep

theorem linspace_mem_lt {d : ℚ} (hd : 0 < d) (n : ℕ) :
    ∀ t ∈ linspace d n, t < d := by
  intro t ht
  unfold linspace at ht
  rcases List.mem_map.mp ht with ⟨i, hi, rfl⟩
  have hin : i < n := List.mem_range.mp hi
  have hn : 0 < (n : ℚ) := by exact_mod_cast Nat.pos_of_ne_zero (by omega)
  have hstep : 0 < d / (n : ℚ) := by positivity
  calc (i : ℚ) * (d / (n : ℚ)) < (n : ℚ) * (d / (n : ℚ)) :=
        mul_lt_mul_of_pos_right (by exact_mod_cast hin) hstep
    _ = d := by field_simp

/-- Claim C1, counterexample. The claim asserts that the thumbnail sampler
returns exactly `max(minimumCount, floor(durationSeconds * targetFps))`
timestamps with `minimumCount = 5`.  At `durationSeconds = 2`,
`targetFps = 1`, `sourceFps = 30` (all claim hypotheses hold) the
generator-class sampler (`CV2ThumbnailGenerator._generate_frame_data`)
returns `int(2 * 1) = 2` timestamps, not `max(5, 2) = 5`: no minimum
count is applied there.  The standalone script applies the minimum of 5
but counts `max(5, int(duration / 6))`, ignoring targetFps: at duration
60 s, targetFps 1, it yields 10 timestamps, not `max(5, 60) = 60`. -/
theorem cv2_sampler_minimum_count_counterexample :
    (0 : ℚ) < 2 ∧ (0 : ℚ) < 30 ∧ (1 : ℚ) ≤ 30 ∧
    (cv2SampleTimestamps 2 1).length = 2 ∧
    max 5 (⌊(2 : ℚ) * 1⌋).toNat = 5 ∧ (2 : ℕ) ≠ 5 ∧
    moviepyNumThumbnails 60 = 10 ∧
    max 5 (⌊(60 : ℚ) * 1⌋).toNat = 60 ∧ (10 : ℕ) ≠ 60 := by
  refine ⟨by norm_num, by norm_num, by norm_num, ?_, by norm_num, by norm_num,
    ?_, by norm_num; rfl, by norm_num⟩
  · rw [cv2SampleTimestamps, linspace_length, cv2NumThumbnails]
    norm_num [pytrunc]
    rfl
  · rw [moviepyNumThumbnails]
    norm_num [pytrunc]
    rfl

/-- Claim C1, amended. For every duration `> 0`, `sourceFps > 0` and
`0 < targetFps <= sourceFps`, the generator-class thumbnail sampler returns
exactly `floor(durationSeconds * targetFps)` timestamps (no minimum count
is applied); the timestamps are strictly increasing and each is strictly
less than the duration. -/
theorem cv2_sampler_count_and_monotone
    (duration targetFps sourceFps : ℚ)
    (hd : 0 < duration) (hfps : 0 < targetFps) (_hsrc : 0 < sourceFps)
    (_hle : targetFps ≤ sourceFps) :
    (cv2SampleTimestamps duration targetFps).length
        = (⌊duration * targetFps⌋).toNat ∧
    (cv2SampleTimestamps duration targetFps).Pairwise (· < ·) ∧
    ∀ t ∈ cv2SampleTimestamps duration targetFps, t < duration := by
  refine ⟨?_, ?_, ?_⟩
  · rw [cv2SampleTimestamps, linspace_length, cv2NumThumbnails,
      pytrunc_eq_floor (by positivity)]
  · exact linspace_sorted hd _
  · exact linspace_mem_lt hd _

/-- Witness for the amended claim C1, at duration 2s, targetFps 1,
sourceFps 30. -/
theorem cv2_sampler_count_and_monotone_witness :
    (cv2SampleTimestamps 2 1).length = (⌊(2 : ℚ) * 1⌋).toNat :=
  (cv2_sampler_count_and_monotone 2 1 30 (by norm_num) (by norm_num)
    (by norm_num) (by norm_num)).1

/-- Frame selection of `CV2Downsampler.process` (lines 100-108): if
`output_fps >= orig_fps` keep all frames, else
`step = orig_fps / output_fps` and
`frame_indices = [int(i * step) for i in range(int(total_frames / step))]`. -/
def frameIndices (origFps outputFps : ℚ) (totalFrames : ℕ) : List ℤ :=
  if origFps ≤ outputFps then
    (List.range totalFrames).map (fun i : ℕ => (i : ℤ))
  else
    (List.range (pytrunc ((totalFrames : ℚ) / (origFps / outputFps))).toNat).map
      (fun i : ℕ => pytrunc ((i : ℚ) * (origFps / outputFps)))

/-- Claim C4 spec-side definition, written from the words of the spec: in
the frame-rate-reduction case (`targetFps < sourceFps`) select the source
frame indices `floor(i * step)`, `step = sourceFps / targetFps`, for `i`
in `[0, floor(sourceFrameCount / step))`; when `targetFps >= sourceFps`
keep all `sourceFrameCount` frames. -/
def frameIndicesSpec (sourceFps targetFps : ℚ) (sourceFrameCount : ℕ) : List ℤ :=
  if targetFps < sourceFps then
    (List.range (⌊(sourceFrameCount : ℚ) / (sourceFps / targetFps)⌋).toNat).map
      (fun i : ℕ => ⌊(i : ℚ) * (sourceFps / targetFps)⌋)
  else
    (List.range sourceFrameCount).map (fun i : ℕ => (i : ℤ))

/-- Claim C4. For positive frame rates, the downsampler frame selection of
`CV2Downsampler.process` agrees exactly with the spec formula: in the
reduction case it selects `floor(i * step)` for `i` in
`[0, floor(sourceFrameCount / step))`, and when `targetFps >= sourceFps`
it keeps all `sourceFrameCount` frames. -/
theorem frameIndices_matches_spec (sourceFps targetFps : ℚ) (n : ℕ)
    (hs : 0 < sourceFps) (ht : 0 < targetFps) :
    frameIndices sourceFps targetFps n = frameIndicesSpec sourceFps targetFps n ∧
    (sourceFps ≤ targetFps → (frameIndices sourceFps targetFps n).length = n) := by
  constructor
  · rcases le_or_lt sourceFps targetFps with hle | hlt
    · rw [frameIndices, frameIndicesSpec, if_pos hle, if_neg (not_lt.mpr hle)]
    · have hstep : 0 < sourceFps / targetFps := by positivity
      have hfun : (fun i : ℕ => pytrunc ((i : ℚ) * (sourceFps / targetFps)))
          = fun i : ℕ => ⌊(i : ℚ) * (sourceFps / targetFps)⌋ :=
        funext fun i => pytrunc_eq_floor (by positivity)
      rw [frameIndices, frameIndicesSpec, if_neg (not_le.mpr hlt), if_pos hlt,
        pytrunc_eq_floor (by positivity), hfun]
  · intro hle
    rw [frameIndices, if_pos hle, List.length_map, List.length_range]

/-- Witness for claim C4, at sourceFps 30, targetFps 10, 7 source frames. -/
theorem frameIndices_matches_spec_witness :
    frameIndices 30 10 7 = frameIndicesSpec 30 10 7 :=
  (frameIndices_matches_spec 30 10 7 (by norm_num) (by norm_num)).1

/-- Output height computed by `CV2Downsampler.process` line 95:
`new_height = int(output_width * orig_height / orig_width)`. -/
def cv2NewHeight (outputWidth origHeight origWidth : ℕ) : ℕ :=
  (pytrunc ((outputWidth : ℚ) * (origHeight : ℚ) / (origWidth : ℚ))).toNat

/-- Thumbnail height passed to PIL in
`CV2ThumbnailGenerator._process_single_frame` (and identically in the
moviepy generator and the standalone script):
`img.height * target_width // img.width`, Python floor division. -/
def pilThumbHeight (height targetWidth width : ℕ) : ℕ :=
  height * targetWidth / width

/-- Claim C8, counterexample. The claim asserts output height
`round(targetWidth * sourceHeight / sourceWidth)`.  On a 1000x999 source
with targetWidth 100, both strategies compute `int(100*999/1000) =
int(99.9) = 99`, while `round(99.9) = 100`: the code truncates, it does
not round. -/
theorem aspect_height_round_counterexample :
    (0 : ℕ) < 1000 ∧ (0 : ℕ) < 999 ∧
    cv2NewHeight 100 999 1000 = 99 ∧
    pilThumbHeight 999 100 1000 = 99 ∧
    round ((100 : ℚ) * 999 / 1000) = 100 ∧ (99 : ℕ) ≠ 100 := by
  refine ⟨by norm_num, by norm_num, ?_, by norm_num [pilThumbHeight], ?_, by norm_num⟩
  · norm_num [cv2NewHeight, pytrunc]
    rfl
  · rw [round_eq]
    norm_num

/-- Claim C8, amended. For every source of positive width and height and
every target width, each processing strategy produces output height
`floor(targetWidth * sourceHeight / sourceWidth)` (truncation, not
rounding); in particular targetWidth 320 on a 1920x1080 source still
yields height 180. -/
theorem aspect_height_is_floor (targetWidth srcHeight srcWidth : ℕ)
    (hw : 0 < srcWidth) (_hh : 0 < srcHeight) :
    cv2NewHeight targetWidth srcHeight srcWidth
        = targetWidth * srcHeight / srcWidth ∧
    pilThumbHeight srcHeight targetWidth srcWidth
        = srcHeight * targetWidth / srcWidth ∧
    cv2NewHeight 320 1080 1920 = 180 := by
  refine ⟨?_, rfl, ?_⟩
  · have h0 : (0 : ℚ) ≤ (targetWidth : ℚ) * (srcHeight : ℚ) / (srcWidth : ℚ) := by
      positivity
    rw [cv2NewHeight, pytrunc_eq_floor h0, Int.floor_toNat,
      ← Nat.cast_mul, Nat.floor_div_nat, Nat.floor_natCast]
  · norm_num [cv2NewHeight, pytrunc]
    rfl

/-- Witness for the amended claim C8, at targetWidth 320 on a 1920x1080
source. -/
theorem aspect_height_is_floor_witness :
    cv2NewHeight 320 1080 1920 = 320 * 1080 / 1920 :=
  (aspect_height_is_floor 320 1080 1920 (by norm_num) (by norm_num)).1

/-- Model of `CV2Downsampler._process_frame_chunk`: for each frame index
the chunk capture is read (`read idx`, which may fail) and on success the
resized frame (`resize` applied to the raw frame) is appended to
`processed_frames`; on a failed read the loop does `continue`.  Frames are
modelled as natural numbers. -/
def processFrameChunk (read : ℕ → Option ℕ) (resize : ℕ → ℕ)
    (chunkIndices : List ℕ) : List ℕ :=
  chunkIndices.filterMap (fun idx => (read idx).map resize)

theorem processFrameChunk_nil (read : ℕ → Option ℕ) (resize : ℕ → ℕ) :
    processFrameChunk read resize [] = [] := rfl

theorem processFrameChunk_cons_none {read : ℕ → Option ℕ} (resize : ℕ → ℕ)
    {a : ℕ} (l : List ℕ) (h : read a = none) :
    processFrameChunk read resize (a :: l)
      = processFrameChunk read resize l := by
  simp [processFrameChunk, List.filterMap_cons, h]

theorem processFrameChunk_cons_some {read : ℕ → Option ℕ} (resize : ℕ → ℕ)
    {a v : ℕ} (l : List ℕ) (h : read a = some v) :
    processFrameChunk read resize (a :: l)
      = resize v :: processFrameChunk read resize l := by
  simp [processFrameChunk, List.filterMap_cons, h]

theorem processFrameChunk_length_of_success (read : ℕ → Option ℕ)
    (resize : ℕ → ℕ) (l : List ℕ) (h : ∀ i ∈ l, (read i).isSome) :
    (processFrameChunk read resize l).length = l.length := by
  induction l with
  | nil => rfl
  | cons a l ih =>
    have ha : (read a).isSome := h a (List.mem_cons_self a l)
    rcases Option.isSome_iff_exists.mp ha with ⟨v, hv⟩
    rw [processFrameChunk_cons_some resize l hv, List.length_cons,
      List.length_cons, ih (fun i hi => h i (List.mem_cons_of_mem _ hi))]

/-- Claim C3, counterexample. The claim asserts that on a single frame
failure the error is recorded and the run reports `failedCount == 1`.
With frame 1 of [0, 1, 2] failing to decode, the chunk result of
`_process_frame_chunk` is exactly the bare success list `[1, 21]`: it is
identical to the result of a run in which frame 1 was never requested, so
no error is recorded anywhere, and the pipeline (which returns only an
output path, or an elapsed-time dict in the thumbnail case) reports no
failure count. -/
theorem frame_failure_silent_counterexample :
    processFrameChunk (fun i => if i = 1 then none else some (10 * i))
        (fun f => f + 1) [0, 1, 2] = [1, 21] ∧
    processFrameChunk (fun i => if i = 1 then none else some (10 * i))
        (fun f => f + 1) [0, 1, 2]
      = processFrameChunk (fun i => if i = 1 then none else some (10 * i))
          (fun f => f + 1) [0, 2] ∧
    ([1, 21] : List ℕ).length = 3 - 1 := by
  refine ⟨rfl, rfl, rfl⟩

/-- Claim C3, amended. If exactly one frame index `k` out of the `n`
frames of a chunk fails to decode, the batch is not aborted: the chunk
result equals the result of processing the remaining frames (so no other
frame's output differs from a run in which `k` was absent) and contains
`n - 1` entries.  The failing frame is skipped silently: no error record
and no failure count appear in any result. -/
theorem frame_failure_skipped (read : ℕ → Option ℕ) (resize : ℕ → ℕ)
    (l : List ℕ) (k : ℕ) (hnd : l.Nodup) (hkl : k ∈ l)
    (hk : read k = none)
    (hother : ∀ i ∈ l, i ≠ k → (read i).isSome) :
    processFrameChunk read resize l
        = processFrameChunk read resize (l.erase k) ∧
    (processFrameChunk read resize l).length = l.length - 1 := by
  have hmain : processFrameChunk read resize l
      = processFrameChunk read resize (l.erase k) := by
    induction l with
    | nil => rfl
    | cons a l ih =>
      rcases eq_or_ne a k with rfl | hak
      · rw [List.erase_cons_head, processFrameChunk_cons_none resize l hk]
      · have hkmem : k ∈ l := by
          rcases List.mem_cons.mp hkl with h | h
          · exact absurd h.symm hak
          · exact h
        have ha : (read a).isSome :=
          hother a (List.mem_cons_self a l) hak
        rcases Option.isSome_iff_exists.mp ha with ⟨v, hv⟩
        have htl : processFrameChunk read resize l
            = processFrameChunk read resize (l.erase k) :=
          ih (List.nodup_cons.mp hnd).2 hkmem
            (fun i hi hik => hother i (List.mem_cons_of_mem _ hi) hik)
        rw [List.erase_cons_tail (by simpa using hak),
          processFrameChunk_cons_some resize l hv,
          processFrameChunk_cons_some resize (l.erase k) hv, htl]
  refine ⟨hmain, ?_⟩
  rw [hmain, processFrameChunk_length_of_success, List.length_erase_of_mem hkl]
  intro i hi
  exact hother i (List.mem_of_mem_erase hi)
    ((List.Nodup.mem_erase_iff hnd).mp hi).1

/-- Witness for the amended claim C3: a 3-frame chunk in which frame 1
fails. -/
theorem frame_failure_skipped_witness :
    processFrameChunk (fun i => if i = 1 then none else some (10 * i))
        (fun f => f + 1) [0, 1, 2]
      = processFrameChunk (fun i => if i = 1 then none else some (10 * i))
          (fun f => f + 1) ([0, 1, 2].erase 1) :=
  (frame_failure_skipped (fun i => if i = 1 then none else some (10 * i))
    (fun f => f + 1) [0, 1, 2] 1 (by decide) (by decide) (by decide)
    (by decide)).1

/-- Audio-merge step at the end of `CV2Downsampler.process` (lines
181-214).  The audio-extraction subprocess is run without `check=True`, so
its exit status (`extractionExitCode`) is never consulted; `has_audio` is
true iff the extracted audio file exists and has positive size; when it is
false the silent temp video is copied byte-for-byte to the output
(`shutil.copy`), otherwise the external merge command is invoked. -/
def cv2AudioMergeStep (merge : List ℕ → List ℕ → List ℕ)
    (_extractionExitCode : ℕ) (tempVideo : List ℕ)
    (audioFile : Option (List ℕ)) : List ℕ :=
  match audioFile with
  | none => tempVideo
  | some a => if 0 < a.length then merge tempVideo a else tempVideo

/-- Claim C5. For every remux run in which audio extraction produces an
absent or zero-byte result, the run does not fail (the step returns
normally) and the final output is byte-for-byte the silent video input:
the `shutil.copy` branch, not a re-encode. -/
theorem remux_no_audio_copies_video (merge : List ℕ → List ℕ → List ℕ)
    (exitCode : ℕ) (tempVideo : List ℕ) (audioFile : Option (List ℕ))
    (h : audioFile = none ∨ audioFile = some []) :
    cv2AudioMergeStep merge exitCode tempVideo audioFile = tempVideo := by
  rcases h with rfl | rfl
  · rfl
  · rfl

/-- Witness for claim C5: absent audio with a concrete silent video. -/
theorem remux_no_audio_copies_video_witness :
    cv2AudioMergeStep (fun v a => v ++ a) 0 [3, 1, 4] none = [3, 1, 4] :=
  remux_no_audio_copies_video (fun v a => v ++ a) 0 [3, 1, 4] none (Or.inl rfl)

/-- Result of the metadata probe stage. -/
inductive ProbeResult
  | metadata (duration fps : ℚ)
  | fatalError

/-- Metadata probe `FFmpegThumbnailGenerator._get_video_metadata`: ffprobe
is run with `check=True`; a non-zero exit raises `CalledProcessError`,
which the `except` clause re-raises as a `ValueError` — fatal for the
stage.  On exit 0 the parsed duration and fps are returned. -/
def getVideoMetadataProbe (exitCode : ℕ) (parsed : ℚ × ℚ) : ProbeResult :=
  if exitCode = 0 then ProbeResult.metadata parsed.1 parsed.2
  else ProbeResult.fatalError

/-- Whether the bare name `ffmpeg_path` resolves at its use sites in
`ffmpeg_downsampler.py` (line 26) and `ffmpeg_generator.py` (lines 47
and 81).  Neither module defines, imports or assigns `ffmpeg_path`
anywhere (`ffmpeg_downsampler.py` imports only `subprocess`, `os`, the
base class and two constants; `ffmpeg_generator.py` imports `os`,
`subprocess`, `json`, `numpy`, `typing`, `tempfile`, `shutil` and
`.base`), and it is not a built-in name, so Python name resolution
(local scope, then module globals, then the built-in scope) fails:
evaluating the name raises `NameError`. -/
def ffmpegPathDefined : Bool := false

/-- Failure of a pipeline stage by an uncaught Python exception. -/
inductive StageFailure
  | nameError

/-- Evaluation of a bare Python name: returns normally when the name is
in scope and raises `NameError` otherwise. -/
def evalName (defined : Bool) : Except StageFailure Unit :=
  if defined then Except.ok () else Except.error StageFailure.nameError

/-- Outcome of `FFmpegDownsampler.process` (lines 18-46) on an existing
input file: the command list built at lines 25-36 evaluates
`str(ffmpeg_path)` at line 26, before the `try` at line 38, so the
`NameError` it raises propagates to the caller on every call — the
encoder is never invoked and no exit status is ever produced or
consulted.  The continuation under a successful name lookup mirrors
lines 38-46: `check=True`, with `CalledProcessError` caught (a printed
message, then an implicit normal return of `None`). -/
def ffmpegDownsamplerProcess (exitCode : ℕ) (outputFilename : List ℕ) :
    Except StageFailure (Option (List ℕ)) :=
  (evalName ffmpegPathDefined).bind
    (fun _ => if exitCode = 0 then Except.ok (some outputFilename)
              else Except.ok none)

/-- Claim C6, counterexample. The claim asserts that every non-zero exit
of an external encoder invocation aborts the stage and propagates a fatal
error.  In `CV2Downsampler.process` the audio-extraction command is run
without `check=True`: with exit status 1 and no audio file produced, the
run completes normally and returns the silent-copy output `[7, 7]` — a
silent fallback, not a fatal error. -/
theorem external_exit_ignored_counterexample :
    (1 : ℕ) ≠ 0 ∧
    cv2AudioMergeStep (fun v a => v ++ a) 1 [7, 7] none = [7, 7] :=
  ⟨by decide, rfl⟩

/-- Claim C6, amended. A non-zero ffprobe exit in the metadata probe is
surfaced as a fatal stage error; but the cv2 downsampler's
audio-extraction invocation ignores the exit status entirely (its result
is the same for every exit code — a failed extraction silently becomes
the no-audio fallback), and `FFmpegDownsampler.process` never invokes
the encoder at all: every call raises `NameError` on the undefined name
`ffmpeg_path` before its `try` block, a failure that propagates to the
caller regardless of any exit status. -/
theorem external_exit_handling (e : ℕ) (m : ℚ × ℚ) (he : e ≠ 0) :
    getVideoMetadataProbe e m = ProbeResult.fatalError ∧
    (∀ merge video audio e2, cv2AudioMergeStep merge e video audio
        = cv2AudioMergeStep merge e2 video audio) ∧
    (∀ e3 out, ffmpegDownsamplerProcess e3 out
        = Except.error StageFailure.nameError) := by
  refine ⟨?_, fun merge video audio e2 => rfl, fun e3 out => rfl⟩
  rw [getVideoMetadataProbe, if_neg he]

/-- Witness for the amended claim C6, at exit status 2. -/
theorem external_exit_handling_witness :
    getVideoMetadataProbe 2 (1, 1) = ProbeResult.fatalError :=
  (external_exit_handling 2 (1, 1) (by decide)).1

/-- State of the scoped temporary working area during one run. -/
structure TempState where
  tempExists : Bool

/-- Model of `shutil.rmtree(temp_dir)` in the `finally` clause. -/
def removeTempDir (s : TempState) : TempState :=
  { s with tempExists := false }

/-- Possible returns of `CV2Downsampler.process`: an output path on
success, or the error dict built by the `except Exception` clause. -/
inductive Cv2RunResult
  | outputPath (p : List ℕ)
  | errorDict (msg : List ℕ)

/-- Python `try/except/finally` as used by `CV2Downsampler.process`: the
body either returns normally or raises; a raise is caught by the
`except` clause; the `finally` action on the temp state runs after the
body on both paths. -/
def tryExceptFinally {E A R : Type} (body : Except E A) (handler : E → R)
    (normal : A → R) (finallyAct : TempState → TempState) (s : TempState) :
    R × TempState :=
  (match body with
   | Except.ok a => normal a
   | Except.error e => handler e,
   finallyAct s)

/-- Control-flow shell of `CV2Downsampler.process` (lines 75-250): body in
`try`, errors converted to an error dict by `except Exception`, temp
directory removed in `finally`. -/
def cv2ProcessShell (body : Except (List ℕ) (List ℕ)) (s : TempState) :
    Cv2RunResult × TempState :=
  tryExceptFinally body Cv2RunResult.errorDict Cv2RunResult.outputPath
    removeTempDir s

/-- Model of `FFmpegThumbnailGenerator._generate_frame_data` (lines
41-72): `tempfile.mkdtemp()` at line 42 creates the temp directory; the
command list built at lines 46-56 evaluates `str(ffmpeg_path)` at line
47, before the pre-scaling subprocess call and before any timestamps are
computed.  The method has no `try`, and neither has its caller
`generate_thumbnails`, so the raised `NameError` propagates and the temp
directory stays behind.  The continuation under a successful name lookup
mirrors lines 61-62 (the pre-scaling subprocess result is unused): the
sampled timestamps `np.linspace(0, duration,
num=int(duration * output_fps), endpoint=False)`. -/
def ffmpegGenerateFrameData (duration outputFps : ℚ) :
    Except StageFailure (List ℚ) × TempState :=
  ((evalName ffmpegPathDefined).bind
     (fun _ => Except.ok (cv2SampleTimestamps duration outputFps)),
   ⟨true⟩)

/-- Temp-directory removal condition of
`FFmpegThumbnailGenerator._process_single_frame` (lines 74-104): the
whole body sits in a `try` whose command list evaluates
`str(ffmpeg_path)` at line 81, before the `timestamp == 0` rmtree at
lines 92-99; the `NameError` is caught by the `except` clause, which
returns `None` — so the rmtree runs only if the name lookup succeeds
and the worker's frame timestamp is 0. -/
def ffmpegProcessSingleFrameRemoves (timestamp : ℚ) : Bool :=
  match evalName ffmpegPathDefined with
  | Except.error _ => false
  | Except.ok _ => decide (timestamp = 0)

/-- Whether a run of the ffmpeg thumbnail generator removes the temp
directory created by `_generate_frame_data`: if the frame-data stage
raises, the error propagates out of `generate_thumbnails` and no worker
is ever submitted; otherwise the directory is removed iff some worker
runs the rmtree branch. -/
def ffmpegGenTempRemoved (duration outputFps : ℚ) : Bool :=
  match (ffmpegGenerateFrameData duration outputFps).1 with
  | Except.error _ => false
  | Except.ok ts => ts.any ffmpegProcessSingleFrameRemoves

/-- Claim C7, counterexample. The claim asserts that every pipeline run
removes its temporary working area on every exit path.  A run of the
ffmpeg thumbnail generator at duration 1 s, target fps 5 creates the
temp directory in `_generate_frame_data` and never removes it: the
undefined name `ffmpeg_path` raises `NameError` at line 47, after the
`mkdtemp` and before sampling, the error propagates with no handler, and
the rmtree in `_process_single_frame` is unreachable (the same undefined
name raises inside the worker's `try` first). -/
theorem temp_cleanup_counterexample :
    (ffmpegGenerateFrameData 1 5).2.tempExists = true ∧
    ffmpegGenTempRemoved 1 5 = false :=
  ⟨rfl, rfl⟩

/-- Claim C7, amended. The cv2 downsampler does remove its temp directory
on every exit path — success and caught exception alike — via its
`finally` clause; the ffmpeg thumbnail generator never removes its temp
directory on any run: `_generate_frame_data` creates it and then raises
`NameError` on the undefined name `ffmpeg_path` before sampling, the
error propagates (neither the method nor its caller has a handler), and
the timestamp-0 rmtree in `_process_single_frame` is unreachable because
the same undefined name raises inside the worker's `try` before it. -/
theorem temp_cleanup_paths :
    (∀ (body : Except (List ℕ) (List ℕ)) (s : TempState),
        ((cv2ProcessShell body s).2).tempExists = false) ∧
    (∀ d fps : ℚ, (ffmpegGenerateFrameData d fps).2.tempExists = true ∧
        ffmpegGenTempRemoved d fps = false) := by
  constructor
  · intro body s
    cases body <;> rfl
  · intro d fps
    exact ⟨rfl, rfl⟩

/-- Frame rate chosen by `create_video_from_thumbs`
(`utils/create_video_from_thumbs.py` line 95):
`fps = thumbs_amount / audio_duration`. -/
def thumbsFps (thumbsAmount : ℕ) (audioDuration : ℚ) : ℚ :=
  (thumbsAmount : ℚ) / audioDuration

/-- Per-frame display durations chosen by `create_video`
(`create_video_from_thumbs.py` line 95):
`np.full(num_frames, audio_duration / num_frames)`. -/
def frameDurations (numFrames : ℕ) (audioDuration : ℚ) : List ℚ :=
  List.replicate numFrames (audioDuration / (numFrames : ℚ))

/-- Claim C10. For a non-empty thumbnail list of length n and an audio
track of positive duration d, the video-assembly stage sets the
image-sequence frame rate to n / d, equivalently gives each of the n
frames display duration d / n summing to d; an n-frame image sequence at
rate n / d lasts n / (n / d) = d, so the assembled video's duration equals
the audio's duration. -/
theorem video_duration_matches_audio (n : ℕ) (d : ℚ) (hn : 0 < n)
    (_hd : 0 < d) :
    thumbsFps n d = (n : ℚ) / d ∧
    (n : ℚ) / thumbsFps n d = d ∧
    (frameDurations n d).sum = d := by
  have hnq : (0 : ℚ) < (n : ℚ) := by exact_mod_cast hn
  refine ⟨rfl, ?_, ?_⟩
  · rw [thumbsFps]
    field_simp
  · rw [frameDurations, List.sum_replicate, nsmul_eq_mul]
    field_simp

/-- Witness for claim C10, at 4 thumbnails over a 2-second audio track. -/
theorem video_duration_matches_audio_witness :
    (4 : ℚ) / thumbsFps 4 2 = 2 :=
  (video_duration_matches_audio 4 2 (by norm_num) (by norm_num)).2.1

/-- Decimal digit values of `i` zero-padded on the left to width 3, most
significant first, as produced by the Python format `f"{i:03d}"` (for
`i >= 1000` the full digit string is produced, with no padding). -/
def pad3 (i : ℕ) : List ℕ :=
  List.replicate (3 - ((Nat.digits 10 i).reverse).length) 0
    ++ (Nat.digits 10 i).reverse

/-- Code points of the output filename `f"{base_name}-{i:03d}.png"` built
by `_generate_frame_data` (cv2, moviepy and ffmpeg generators alike) and
by the standalone script: the base name's code points, a hyphen (45), the
zero-padded index digits (digit d has code point 48 + d), then ".png"
(46, 112, 110, 103).  Python string comparison is the lexicographic order
on code points, i.e. `List.Lex (fun a b => a < b)`, which is the order
`<` of the Mathlib linear order on `List ℕ`. -/
def pathCodes (base : List ℕ) (i : ℕ) : List ℕ :=
  base ++ 45 :: ((pad3 i).map (fun d => 48 + d) ++ [46, 112, 110, 103])

/-- Model of Python `sorted` on a list of strings: sort by the total
lexicographic code-point order. -/
def pySorted (l : List (List ℕ)) : List (List ℕ) :=
  List.insertionSort (· ≤ ·) l

/-- Result collection of `BaseThumbnailGenerator._process_frames` (lines
42-53): worker results are appended in completion order (`as_completed`),
and the function returns `sorted(thumbnail_files)`.  The completion order
is modelled as the list of frame positions in the order in which their
futures complete. -/
def processFramesOutput (frameOutputs : List (List ℕ))
    (completionOrder : List ℕ) : List (List ℕ) :=
  pySorted (completionOrder.map (fun k => frameOutputs.getD k []))

/-- Chunk partition of `CV2Downsampler.process` line 118:
`[frame_indices[i:i+chunk_size] for i in range(0, len(frame_indices),
chunk_size)]` (for positive `chunk_size` the number of slices is the
rounded-up quotient). -/
def chunksOf (l : List ℕ) (size : ℕ) : List (List ℕ) :=
  (List.range ((l.length + size - 1) / size)).map
    (fun j => (l.drop (j * size)).take size)

/-- Frame sequence written by `CV2Downsampler.process` lines 142-147: the
frames of each completed chunk are written to the video writer in
completion order, with no re-sorting. -/
def cv2WrittenFrames (chunks : List (List ℕ)) (completionOrder : List ℕ) :
    List ℕ :=
  (completionOrder.map (fun k => chunks.getD k [])).flatten

theorem pad3_eq {i : ℕ} (h : i < 1000) :
    pad3 i = [i / 100, i / 10 % 10, i % 10] := by
  have hlen : (Nat.digits 10 i).length ≤ 3 := by
    rcases Nat.eq_zero_or_pos i with rfl | hi
    · simp
    · rw [Nat.digits_len 10 i (by norm_num) (by omega)]
      have hlog : Nat.log 10 i < 3 :=
        Nat.log_lt_of_lt_pow (by omega) (by norm_num; omega)
      omega
  have hofd := Nat.ofDigits_digits 10 i
  rcases hds : Nat.digits 10 i with _ | ⟨a, _ | ⟨b, _ | ⟨c, _ | ⟨d, tl⟩⟩⟩⟩
  · rw [hds] at hofd
    simp only [Nat.ofDigits_nil] at hofd
    subst hofd
    rw [pad3, hds]
    rfl
  · have ha : a < 10 := Nat.digits_lt_base (by norm_num) (by rw [hds]; simp)
    rw [hds] at hofd
    simp only [Nat.ofDigits_cons, Nat.ofDigits_nil] at hofd
    rw [pad3, hds]
    simp only [List.reverse_cons, List.reverse_nil, List.nil_append,
      List.length_cons, List.length_nil]
    show [0, 0, a] = [i / 100, i / 10 % 10, i % 10]
    simp only [List.cons.injEq, and_true]
    omega
  · have ha : a < 10 := Nat.digits_lt_base (by norm_num) (by rw [hds]; simp)
    have hb : b < 10 := Nat.digits_lt_base (by norm_num) (by rw [hds]; simp)
    rw [hds] at hofd
    simp only [Nat.ofDigits_cons, Nat.ofDigits_nil] at hofd
    rw [pad3, hds]
    show [0, b, a] = [i / 100, i / 10 % 10, i % 10]
    simp only [List.cons.injEq, and_true]
    omega
  · have ha : a < 10 := Nat.digits_lt_base (by norm_num) (by rw [hds]; simp)
    have hb : b < 10 := Nat.digits_lt_base (by norm_num) (by rw [hds]; simp)
    have hc : c < 10 := Nat.digits_lt_base (by norm_num) (by rw [hds]; simp)
    rw [hds] at hofd
    simp only [Nat.ofDigits_cons, Nat.ofDigits_nil] at hofd
    rw [pad3, hds]
    show [c, b, a] = [i / 100, i / 10 % 10, i % 10]
    simp only [List.cons.injEq, and_true]
    omega
  · rw [hds] at hlen
    simp at hlen

theorem lex_append_of_length_eq :
    ∀ {u v : List ℕ}, u.length = v.length → List.Lex (· < ·) u v →
      ∀ s t : List ℕ, List.Lex (· < ·) (u ++ s) (v ++ t) := by
  intro u
  induction u with
  | nil =>
    intro v hlen h s t
    cases h with
    | nil => simp at hlen
  | cons a u ih =>
    intro v hlen h s t
    cases h with
    | cons h2 => exact List.Lex.cons (ih (by simpa using hlen) h2 s t)
    | rel h2 => exact List.Lex.rel h2

theorem digitCodes_lex_of_lt {i j : ℕ} (hij : i < j) (hj : j < 1000) :
    List.Lex (· < ·) ((pad3 i).map (fun d => 48 + d))
      ((pad3 j).map (fun d => 48 + d)) := by
  have hi : i < 1000 := lt_trans hij hj
  rw [pad3_eq hi, pad3_eq hj]
  simp only [List.map_cons, List.map_nil]
  rcases Nat.lt_trichotomy (i / 100) (j / 100) with h1 | h1 | h1
  · exact List.Lex.rel (by omega)
  · rw [h1]
    rcases Nat.lt_trichotomy (i / 10 % 10) (j / 10 % 10) with h2 | h2 | h2
    · exact List.Lex.cons (List.Lex.rel (by omega))
    · rw [h2]
      exact List.Lex.cons (List.Lex.cons (List.Lex.rel (by omega)))
    · exact absurd h2 (by omega)
  · exact absurd h1 (by omega)

theorem pathCodes_split (base : List ℕ) (i : ℕ) :
    pathCodes base i
      = (base ++ [45])
        ++ ((pad3 i).map (fun d => 48 + d) ++ [46, 112, 110, 103]) := by
  rw [pathCodes, List.append_assoc]
  rfl

theorem pathCodes_lt (base : List ℕ) {i j : ℕ} (hij : i < j)
    (hj : j < 1000) : pathCodes base i < pathCodes base j := by
  have hi : i < 1000 := lt_trans hij hj
  have hlen : ((pad3 i).map (fun d => 48 + d)).length
      = ((pad3 j).map (fun d => 48 + d)).length := by
    rw [List.length_map, List.length_map, pad3_eq hi, pad3_eq hj]
    rfl
  show List.Lex (· < ·) (pathCodes base i) (pathCodes base j)
  rw [pathCodes_split, pathCodes_split]
  exact List.Lex.append_left _
    (lex_append_of_length_eq hlen (digitCodes_lex_of_lt hij hj) _ _) _

theorem pathCodes_thousand_lt (base : List ℕ) :
    pathCodes base 1000 < pathCodes base 999 := by
  have h1000 : pad3 1000 = [1, 0, 0, 0] := by
    rw [pad3]
    norm_num
  have h999 : pad3 999 = [9, 9, 9] := pad3_eq (by norm_num)
  show List.Lex (· < ·) (pathCodes base 1000) (pathCodes base 999)
  rw [pathCodes_split, pathCodes_split, h1000, h999]
  exact List.Lex.append_left _ (List.Lex.rel (by norm_num)) _

theorem paths_pairwise_lt (base : List ℕ) {n : ℕ} (hn : n ≤ 1000) :
    ((List.range n).map (pathCodes base)).Pairwise (· < ·) := by
  refine List.pairwise_map.mpr ?_
  refine (List.pairwise_lt_range n).imp_of_mem ?_
  intro a b _ha hb hab
  exact pathCodes_lt base hab (lt_of_lt_of_le (List.mem_range.mp hb) hn)

theorem paths_sorted (base : List ℕ) {n : ℕ} (hn : n ≤ 1000) :
    ((List.range n).map (pathCodes base)).Sorted (· ≤ ·) :=
  (paths_pairwise_lt base hn).imp le_of_lt

/-- Claim C9. Thumbnail frame indices are formatted as zero-padded
3-digit sequence numbers and the final list is ordered by plain string
sort.  For every run producing at most 1000 thumbnails (indices 0..n-1,
n <= 1000), the string-sorted output path list is exactly the path list
in frame-index order; for any run producing more than 1000 thumbnails the
two orders disagree: the path of frame 1000 sorts strictly before the
path of frame 999. -/
theorem path_string_sort_vs_index_order (base : List ℕ) (n : ℕ)
    (hn : n ≤ 1000) :
    pySorted ((List.range n).map (pathCodes base))
        = (List.range n).map (pathCodes base) ∧
    pathCodes base 1000 < pathCodes base 999 ∧ (999 : ℕ) < 1000 := by
  refine ⟨?_, pathCodes_thousand_lt base, by norm_num⟩
  exact List.eq_of_perm_of_sorted (List.perm_insertionSort _ _)
    (List.sorted_insertionSort _ _) (paths_sorted base hn)

/-- Witness for claim C9, at base name "thumb" (code points
[116, 104, 117, 109, 98]) and 3 thumbnails. -/
theorem path_string_sort_vs_index_order_witness :
    pySorted ((List.range 3).map (pathCodes [116, 104, 117, 109, 98]))
      = (List.range 3).map (pathCodes [116, 104, 117, 109, 98]) :=
  (path_string_sort_vs_index_order [116, 104, 117, 109, 98] 3 (by norm_num)).1

/-- Claim C2, counterexample. The claim asserts that for every batch and
every completion ordering, the artifact sequence of the scheduling stage
is sorted by frame index.  In `CV2Downsampler.process`, 25 frames with
the default chunk size 24 partition into 2 chunks; under the completion
ordering in which chunk 1 finishes first, the frames are written to the
output video as [24, 0, 1, ..., 23] — not sorted by index, and different
from the submission-order result. -/
theorem downsampler_completion_order_counterexample :
    ([1, 0] : List ℕ).Perm (List.range 2) ∧
    (chunksOf (List.range 25) 24).length = 2 ∧
    cv2WrittenFrames (chunksOf (List.range 25) 24) [0, 1] = List.range 25 ∧
    ¬ (cv2WrittenFrames (chunksOf (List.range 25) 24) [1, 0]).Pairwise
        (· ≤ ·) := by
  refine ⟨?_, by decide, by decide, by decide⟩
  rw [show List.range 2 = [0, 1] from rfl]
  exact List.Perm.swap 0 1 []

/-- Claim C2, amended. The thumbnail scheduling stage
(`BaseThumbnailGenerator._process_frames`) collects worker results in
completion order but returns the string-sorted path list, so for every
completion ordering of at most 1000 frames its output equals the path
list in frame-index order — deterministic and independent of which worker
finishes first.  The cv2 downsampler's video stage, by contrast, writes
chunk results in completion order with no re-sorting (see the
counterexample), so the amended ordering invariant holds for the
thumbnail stage only. -/
theorem thumbnail_output_independent_of_completion (base : List ℕ) (n : ℕ)
    (order : List ℕ) (hperm : order.Perm (List.range n)) (hn : n ≤ 1000) :
    processFramesOutput ((List.range n).map (pathCodes base)) order
      = (List.range n).map (pathCodes base) := by
  have hmem : ∀ k ∈ order,
      ((List.range n).map (pathCodes base)).getD k [] = pathCodes base k := by
    intro k hk
    have hkn : k < n := List.mem_range.mp (hperm.mem_iff.mp hk)
    have hlen : k < ((List.range n).map (pathCodes base)).length := by
      rw [List.length_map, List.length_range]
      exact hkn
    rw [List.getD_eq_getElem _ _ hlen]
    simp
  have hmap : order.map (fun k => ((List.range n).map (pathCodes base)).getD k [])
      = order.map (pathCodes base) := List.map_congr_left hmem
  rw [processFramesOutput, hmap, pySorted]
  exact List.eq_of_perm_of_sorted
    ((List.perm_insertionSort _ _).trans (hperm.map (pathCodes base)))
    (List.sorted_insertionSort _ _) (paths_sorted base hn)

/-- Witness for the amended claim C2: 3 frames completing in the order
2, 0, 1. -/
theorem thumbnail_output_independent_of_completion_witness :
    processFramesOutput
        ((List.range 3).map (pathCodes [116, 104, 117, 109, 98])) [2, 0, 1]
      = (List.range 3).map (pathCodes [116, 104, 117, 109, 98]) :=
  thumbnail_output_independent_of_completion [116, 104, 117, 109, 98] 3
    [2, 0, 1] (by decide) (by norm_num)

end Collectors
